import Mathlib

/-!
Shallow embedding of the numeric core of `src/inc/Container.hpp` (namespace
`dobots`): the distance library over sequences, set distances, the
attraction/repulsion transforms, the discrete integral and the circular
convolution. Sequences of the C++ template parameter `T` (instantiated at
floating point in the tracker) are modelled as `List ℝ`; a set of points
(`std::set<std::vector<T>*>`, iterated in its fixed iteration order) is a
`List (List ℝ)`. Failure (a firing `assert`, or dereferencing past the end
of an empty range) is modelled with `Except String`: `.error` marks the
aborted execution, `.ok` a value actually returned by the C++ function.
-/

namespace dobots

/-- The metric selectors of `enum DistanceMetric` (Container.hpp, lines 77-87).
`DM_TYPES` is the count sentinel, outside the eight implemented metrics. -/
inductive DistanceMetric where
  | DM_EUCLIDEAN
  | DM_DOTPRODUCT
  | DM_BHATTACHARYYA
  | DM_HELLINGER
  | DM_MANHATTAN
  | DM_CHEBYSHEV
  | DM_BHATTACHARYYA_COEFFICIENT
  | DM_SQUARED_HELLINGER
  | DM_TYPES
  deriving DecidableEq, Repr

/-- The selectors of `enum SetDistanceMetric` (lines 89-95), `SDM_INFIMIM`
spelled as in the source. -/
inductive SetDistanceMetric where
  | SDM_INFIMIM
  | SDM_SUPREMUM
  | SDM_HAUSDORFF
  | SDM_SUPINF
  | SDM_TYPES
  deriving DecidableEq, Repr

open DistanceMetric SetDistanceMetric

/-- `euclidean` (line 113): element combinator `(x-y)*(x-y)`. -/
def euclidean (x y : ℝ) : ℝ := (x - y) * (x - y)

/-- `taxicab` (line 121): element combinator `std::abs(x-y)`. -/
def taxicab (x y : ℝ) : ℝ := |x - y|

/-- `battacharyya` (line 130, spelled as in the source): `std::sqrt(x*y)`. -/
noncomputable def battacharyya (x y : ℝ) : ℝ := Real.sqrt (x * y)

/-- `hellinger` (line 139): `tmp = sqrt(x)-sqrt(y); tmp*tmp`. -/
noncomputable def hellinger (x y : ℝ) : ℝ :=
  (Real.sqrt x - Real.sqrt y) * (Real.sqrt x - Real.sqrt y)

/-- `std::inner_product(first1, last1, first2, init, op1, op2)`: the left
fold `init = op1 (init, op2 (x_i, y_i))` in index order. The C++ call sites
guarantee the second range is at least as long as the first; past either
end the fold stops (the guarded call sites never reach that case). -/
def inner_product (op1 op2 : ℝ → ℝ → ℝ) : ℝ → List ℝ → List ℝ → ℝ
  | init, x :: xs, y :: ys => inner_product op1 op2 (op1 init (op2 x y)) xs ys
  | init, _, _ => init

/-- The value computed by each branch of the `switch (metric)` in `distance`
(lines 229-252). The `default` branch (lines 249-251) prints
"Unknown distance metric" to stderr and returns `T(-1)`. -/
noncomputable def distanceValue (l1 l2 : List ℝ) : DistanceMetric → ℝ
  | DM_DOTPRODUCT => inner_product (· + ·) (· * ·) 0 l1 l2
  | DM_EUCLIDEAN => Real.sqrt (inner_product (· + ·) euclidean 0 l1 l2)
  | DM_BHATTACHARYYA => -Real.log (inner_product (· + ·) battacharyya 0 l1 l2)
  | DM_HELLINGER => Real.sqrt (inner_product (· + ·) hellinger 0 l1 l2) / Real.sqrt 2
  | DM_CHEBYSHEV => inner_product (fun a b => max a b) taxicab 0 l1 l2
  | DM_MANHATTAN => inner_product (· + ·) taxicab 0 l1 l2
  | DM_BHATTACHARYYA_COEFFICIENT => inner_product (· + ·) battacharyya 0 l1 l2
  | DM_SQUARED_HELLINGER =>
      Real.sqrt (1 - inner_product (· + ·) battacharyya 0 l1 l2)
  | DM_TYPES => -1

/-- `distance` (lines 219-253). On unequal lengths the function prints to
stderr and the `assert` at line 227 aborts: modelled as `.error`. Every
branch of the switch, the `default` branch included, returns a value. -/
noncomputable def distance (l1 l2 : List ℝ) (metric : DistanceMetric) :
    Except String ℝ :=
  if l1.length = l2.length then .ok (distanceValue l1 l2 metric)
  else .error "Container size unequal"

/-- `op_adjust` (lines 148-158): `x + (x-y)*mu`. -/
def op_adjust (mu x y : ℝ) : ℝ := x + (x - y) * mu

/-- `increaseDistance` (lines 174-181): asserts `0 < mu` and `mu <= 1`
(line 179, modelled as `.error` when violated), then
`std::transform(tomove, reference, tomove, op_adjust(mu))`, overwriting
`tomove` and leaving `reference` untouched; both final states are returned
as a pair `(tomove, reference)`. -/
noncomputable def increaseDistance (tomove reference : List ℝ) (mu : ℝ) :
    Except String (List ℝ × List ℝ) :=
  if 0 < mu ∧ mu ≤ 1 then
    .ok (List.zipWith (fun x y => op_adjust mu x y) tomove reference, reference)
  else .error "assertion failed: 0 < mu and mu <= 1"

/-- `decreaseDistance` (lines 191-198): same asserts, then
`std::transform(tomove, reference, tomove, op_adjust(-mu))`. -/
noncomputable def decreaseDistance (tomove reference : List ℝ) (mu : ℝ) :
    Except String (List ℝ × List ℝ) :=
  if 0 < mu ∧ mu ≤ 1 then
    .ok (List.zipWith (fun x y => op_adjust (-mu) x y) tomove reference, reference)
  else .error "assertion failed: 0 < mu and mu <= 1"

/-- Error-propagating map over a list, evaluated left to right: models a
loop of fallible calls where the first aborting call aborts the whole
computation. -/
def mapE (f : α → Except String β) : List α → Except String (List β)
  | [] => .ok []
  | a :: l =>
    match f a, mapE f l with
    | .ok b, .ok bs => .ok (b :: bs)
    | .error e, _ => .error e
    | .ok _, .error e => .error e

/-- The value selected by `std::min_element` over a nonempty range compared
by `<` on associated values: the first element attaining the minimum. Since
the caller only uses the selected element through its associated value, we
fold `min` over the values directly. `none` models the undefined dereference
`*std::min_element(first, last)` on an empty range. -/
def minFold : List ℝ → Option ℝ
  | [] => none
  | x :: xs => some (xs.foldl (fun best y => min best y) x)

/-- Value selected by `std::max_element`, analogously. -/
def maxFold : List ℝ → Option ℝ
  | [] => none
  | x :: xs => some (xs.foldl (fun best y => max best y) x)

/-- `distance_to_point` (lines 299-326). For `SDM_INFIMIM` the code selects
with `std::min_element` (comparator `comp_point_distance`: compares the
`distance` of each set member to the point) the closest member and returns
its `distance` to the point; the comparator evaluates `distance` on every
member, so any aborting `distance` call aborts the whole call. For
`SDM_SUPREMUM` likewise with `std::max_element`. The `default` branch
(lines 320-322) prints "Not yet implemented" and falls through to
`return result` with `result = T(-1)` (line 309). -/
noncomputable def distance_to_point (s : List (List ℝ)) (point : List ℝ)
    (set_metric : SetDistanceMetric) (point_metric : DistanceMetric) :
    Except String ℝ :=
  match set_metric with
  | SDM_INFIMIM =>
    match mapE (fun p => distance p point point_metric) s with
    | .error e => .error e
    | .ok ds =>
      match minFold ds with
      | some d => .ok d
      | none => .error "min_element dereferenced on empty range"
  | SDM_SUPREMUM =>
    match mapE (fun p => distance p point point_metric) s with
    | .error e => .error e
    | .ok ds =>
      match maxFold ds with
      | some d => .ok d
      | none => .error "max_element dereferenced on empty range"
  | _ => .ok (-1)

/-- The `SDM_SUPINF` branch of `distance_to_set` (lines 398-405): select
with `std::max_element` (comparator `comp_point_set_distance`, which
evaluates `distance_to_point(set2, -, SDM_INFIMIM)` on the members of the
first set) the remotest member of the first set and return its infimum
distance to the second set. -/
noncomputable def supinfDistance (s1 s2 : List (List ℝ))
    (point_metric : DistanceMetric) : Except String ℝ :=
  match mapE (fun p => distance_to_point s2 p SDM_INFIMIM point_metric) s1 with
  | .error e => .error e
  | .ok ds =>
    match maxFold ds with
    | some d => .ok d
    | none => .error "max_element dereferenced on empty range"

/-- `distance_to_set` (lines 380-410). `SDM_HAUSDORFF` takes the max of the
two directional `SDM_SUPINF` distances (lines 393-397). The `default`
branch (lines 406-408) prints "Not yet implemented", breaks out of the
switch and reaches the end of the value-returning function without a
`return` statement, which is undefined behavior in C++: modelled as
`.error`. -/
noncomputable def distance_to_set (s1 s2 : List (List ℝ))
    (set_metric : SetDistanceMetric) (point_metric : DistanceMetric) :
    Except String ℝ :=
  match set_metric with
  | SDM_HAUSDORFF =>
    match supinfDistance s1 s2 point_metric with
    | .error e => .error e
    | .ok dist_xy =>
      match supinfDistance s2 s1 point_metric with
      | .error e => .error e
      | .ok dist_yx => .ok (max dist_xy dist_yx)
  | SDM_SUPINF => supinfDistance s1 s2 point_metric
  | _ => .error "control reaches end of non-void function"

/-- Loop of `integral` (lines 445-454) after the first output element was
written: `while (++first1 != last1) { value = value + *first1 * *++first2;
*++result = value; }`. The `[value]` fallback covers the remaining cases;
with the second range at least as long as the first it is reached exactly
when the first range is exhausted. -/
def integralGo (value : ℝ) : List ℝ → List ℝ → List ℝ
  | x :: xs, y :: ys => value :: integralGo (value + x * y) xs ys
  | _, _ => [value]

/-- `integral` (lines 432-455, the two-iterator overload): running sums of
elementwise products; empty first range produces no output. -/
def integral : List ℝ → List ℝ → List ℝ
  | x :: xs, y :: ys => integralGo (x * y) xs ys
  | _, _ => []

/-- `reverse_inner_product(first1, last1, last2, init)` (lines 522-537):
`--last2`, then fold `init = init + *first1 * *last2` walking `first1`
forward and `last2` backward; pairs `l1[i]` with `l2[len2-1-i]`. -/
def reverse_inner_product (l1 l2 : List ℝ) (init : ℝ) : ℝ :=
  (List.zipWith (fun a b => a * b) l1 l2.reverse).foldl (fun acc t => acc + t) init

/-- One `std::rotate(first2, last2 - shift, last2)` (line 574): the final
`shift` elements move to the front. Requires `shift ≤ length` in C++. -/
def rotateBack (shift : Nat) (l : List ℝ) : List ℝ :=
  l.drop (l.length - shift) ++ l.take (l.length - shift)

/-- The `while (dist--)` loop of `circular_convolution` (lines 573-576),
counting down from `std::distance(first1, last1)`: each iteration first
rotates the second container in place, then appends one
`reverse_inner_product`. Returns the pair (output written through `result`,
final state of the second container). -/
def convolutionLoop : Nat → List ℝ → List ℝ → Nat → List ℝ × List ℝ
  | 0, _, l2, _ => ([], l2)
  | n + 1, l1, l2, shift =>
      let l2' := rotateBack shift l2
      let rest := convolutionLoop n l1 l2' shift
      (reverse_inner_product l1 l2' 0 :: rest.1, rest.2)

/-- `circular_convolution` (lines 560-578): `len(seq1)` loop iterations;
`seq1` is only read, `seq2` is rotated in place before every output
element. -/
def circular_convolution (l1 l2 : List ℝ) (shift : Nat) : List ℝ × List ℝ :=
  convolutionLoop l1.length l1 l2 shift

/-! Helper lemmas shared by the claim theorems. -/

/-- Folding plus over pairwise-combined elements is the sum of the zip. -/
theorem inner_product_add (f : ℝ → ℝ → ℝ) :
    ∀ (l1 l2 : List ℝ) (init : ℝ),
      inner_product (· + ·) f init l1 l2 = init + (List.zipWith f l1 l2).sum := by
  intro l1
  induction l1 with
  | nil => intro l2 init; cases l2 <;> simp [inner_product]
  | cons x xs ih =>
    intro l2 init
    cases l2 with
    | nil => simp [inner_product]
    | cons y ys =>
      simp only [inner_product, ih, List.zipWith_cons_cons, List.sum_cons]
      ring

/-- The update written by a `transform` with `op_adjust (-1)` is the
reference itself. -/
theorem zipWith_adjust_neg_one (x ref : List ℝ) (h : x.length = ref.length) :
    List.zipWith (fun a b => op_adjust (-1) a b) x ref = ref := by
  induction x generalizing ref with
  | nil =>
    cases ref with
    | nil => rfl
    | cons b bs => simp at h
  | cons a as ih =>
    cases ref with
    | nil => simp at h
    | cons b bs =>
      have h2 : as.length = bs.length := by simpa using h
      simp only [List.zipWith_cons_cons, ih bs h2]
      congr 1
      unfold op_adjust
      ring

/-- Element access through a `zipWith`, with default. -/
theorem zipWith_getD (f : ℝ → ℝ → ℝ) (l1 l2 : List ℝ) (i : Nat)
    (h1 : i < l1.length) (h2 : i < l2.length) :
    (List.zipWith f l1 l2).getD i 0 = f (l1.getD i 0) (l2.getD i 0) := by
  induction l1 generalizing l2 i with
  | nil => simp at h1
  | cons a as ih =>
    cases l2 with
    | nil => simp at h2
    | cons b bs =>
      cases i with
      | zero => simp
      | succ n =>
        simp only [List.zipWith_cons_cons, List.getD_cons_succ]
        exact ih bs n (by simpa using h1) (by simpa using h2)

/-- A list of fallible calls all of which succeed maps to an `.ok` list of
the same length. -/
theorem mapE_ok_of_forall {α β : Type} (f : α → Except String β) (l : List α)
    (h : ∀ a ∈ l, ∃ b, f a = .ok b) :
    ∃ bs, mapE f l = Except.ok bs ∧ bs.length = l.length := by
  induction l with
  | nil => exact ⟨[], rfl, rfl⟩
  | cons a t ih =>
    obtain ⟨b, hb⟩ := h a (List.mem_cons_self a t)
    obtain ⟨bs, hbs, hlen⟩ := ih fun x hx => h x (List.mem_cons_of_mem a hx)
    exact ⟨b :: bs, by simp [mapE, hb, hbs], by simp [hlen]⟩

/-- `distance` returns a value whenever the ranges have equal lengths,
whatever the metric. -/
theorem distance_ok (l1 l2 : List ℝ) (m : DistanceMetric)
    (h : l1.length = l2.length) : ∃ v, distance l1 l2 m = Except.ok v :=
  ⟨distanceValue l1 l2 m, by simp [distance, h]⟩

/-- The infimum point-to-set distance returns a value on a nonempty set of
points of the right length. -/
theorem distance_to_point_infimum_ok (s : List (List ℝ)) (p : List ℝ)
    (pm : DistanceMetric) (hs : s ≠ [])
    (h : ∀ q ∈ s, q.length = p.length) :
    ∃ v, distance_to_point s p SDM_INFIMIM pm = Except.ok v := by
  obtain ⟨ds, hds, hlen⟩ :=
    mapE_ok_of_forall (fun q => distance q p pm) s
      fun q hq => distance_ok q p pm (h q hq)
  cases ds with
  | nil =>
    exfalso
    apply hs
    have : s.length = 0 := by simpa using hlen.symm
    exact List.length_eq_zero.mp this
  | cons d dt =>
    exact ⟨dt.foldl (fun best y => min best y) d,
      by simp [distance_to_point, hds, minFold]⟩

/-- The supremum-of-infima set distance returns a value on nonempty sets of
points of a common length. -/
theorem supinfDistance_ok (s1 s2 : List (List ℝ)) (pm : DistanceMetric)
    (n : Nat) (h1 : s1 ≠ []) (h2 : s2 ≠ [])
    (hp : ∀ q ∈ s1, q.length = n) (hq : ∀ q ∈ s2, q.length = n) :
    ∃ v, supinfDistance s1 s2 pm = Except.ok v := by
  obtain ⟨ds, hds, hlen⟩ :=
    mapE_ok_of_forall (fun p => distance_to_point s2 p SDM_INFIMIM pm) s1
      fun p hp1 =>
        distance_to_point_infimum_ok s2 p pm h2
          fun q hq2 => by rw [hq q hq2, hp p hp1]
  cases ds with
  | nil =>
    exfalso
    apply h1
    have : s1.length = 0 := by simpa using hlen.symm
    exact List.length_eq_zero.mp this
  | cons d dt =>
    exact ⟨dt.foldl (fun best y => max best y) d,
      by simp [supinfDistance, hds, maxFold]⟩

/-! Claim theorems. -/

/-- Claim C1, counterexample to the claim as stated: on equal-length
sequences and the selector `DM_TYPES`, which is outside the eight
implemented metrics, `distance` does not fail; it returns the numeric
default value `-1`. -/
theorem c1_counterexample :
    distance [(0 : ℝ)] [0] DM_TYPES = Except.ok (-1) ∧
    ¬ ∃ e, distance [(0 : ℝ)] [0] DM_TYPES = Except.error e := by
  constructor
  · simp [distance, distanceValue]
  · intro ⟨e, he⟩
    simp [distance, distanceValue] at he

/-- Claim C1, amended: for equal-length sequences and a metric selector
outside the implemented set (the sentinel `DM_TYPES`), `distance` prints
"Unknown distance metric" to stderr and returns the numeric sentinel
`T(-1)`; it does not fail. -/
theorem c1_unknown_metric_returns_sentinel (l1 l2 : List ℝ)
    (h : l1.length = l2.length) :
    distance l1 l2 DM_TYPES = Except.ok (-1) := by
  simp [distance, h, distanceValue]

/-- Witness for C1 at a concrete input. -/
theorem c1_witness :
    distance [(0 : ℝ), 1] [2, 3] DM_TYPES = Except.ok (-1) :=
  c1_unknown_metric_returns_sentinel [(0 : ℝ), 1] [2, 3] rfl

/-- Claim C6: for sequences of unequal length, `distance` fails with the
length-mismatch condition (the `assert` at Container.hpp line 227), for
every metric selector; no prefix is silently compared. -/
theorem c6_length_mismatch_fails (l1 l2 : List ℝ) (m : DistanceMetric)
    (h : l1.length ≠ l2.length) :
    distance l1 l2 m = Except.error "Container size unequal" := by
  simp [distance, h]

/-- Witness for C6 at a concrete input. -/
theorem c6_witness :
    distance [(0 : ℝ)] [0, 1] DM_EUCLIDEAN =
      Except.error "Container size unequal" :=
  c6_length_mismatch_fails [(0 : ℝ)] [0, 1] DM_EUCLIDEAN (by decide)

/-- Claim C3, counterexample to the claim as stated: `distance_to_point`
with the unimplemented selector `SDM_HAUSDORFF` does not fail; it returns
the default numeric value `-1`, which could be mistaken for a real
result. -/
theorem c3_counterexample :
    distance_to_point [[(0 : ℝ)]] [0] SDM_HAUSDORFF DM_EUCLIDEAN =
      Except.ok (-1) := rfl

/-- Claim C3, amended: at point-to-set level the unimplemented selectors
(`SDM_HAUSDORFF`, `SDM_SUPINF`, `SDM_TYPES`) print "Not yet implemented"
and return the default numeric value `-1`; at set-to-set level the
unimplemented selectors (`SDM_INFIMIM`, `SDM_SUPREMUM`, `SDM_TYPES`) print
"Not yet implemented" and then control reaches the end of the
value-returning function without a return statement (undefined behavior,
modelled as an error). -/
theorem c3_unimplemented_selectors (s : List (List ℝ)) (p : List ℝ)
    (s1 s2 : List (List ℝ)) (pm : DistanceMetric) :
    distance_to_point s p SDM_HAUSDORFF pm = Except.ok (-1) ∧
    distance_to_point s p SDM_SUPINF pm = Except.ok (-1) ∧
    distance_to_point s p SDM_TYPES pm = Except.ok (-1) ∧
    distance_to_set s1 s2 SDM_INFIMIM pm =
      Except.error "control reaches end of non-void function" ∧
    distance_to_set s1 s2 SDM_SUPREMUM pm =
      Except.error "control reaches end of non-void function" ∧
    distance_to_set s1 s2 SDM_TYPES pm =
      Except.error "control reaches end of non-void function" :=
  ⟨rfl, rfl, rfl, rfl, rfl, rfl⟩

/-- Claim C4, counterexample to the claim as stated: `moveToward`
(`decreaseDistance`) applied to target `[0,0]`, reference `[4,4]` and
`mu = 1` yields `[4,4]`, not the literal outcome `[8,8]` stated by the
spec. -/
theorem c4_counterexample :
    decreaseDistance [(0 : ℝ), 0] [4, 4] 1 = Except.ok ([4, 4], [4, 4]) ∧
    ([(4 : ℝ), 4] : List ℝ) ≠ [8, 8] := by
  constructor
  · rw [decreaseDistance, if_pos (by norm_num)]
    norm_num [op_adjust]
  · intro hc
    have : (4 : ℝ) = 8 := by simpa using congrArg (fun l => l.getD 0 0) hc
    norm_num at this

/-- Claim C4, amended: `moveToward` (`decreaseDistance`) with `mu = 1` on
equal-length sequences fully replaces the target with the reference: the
transform applies `x += (x - ref) * (-mu)`, so `x = [0,0]`, `ref = [4,4]`,
`mu = 1` gives `[4,4]`, i.e. the target becomes the reference. -/
theorem c4_mu_one_replaces_target (x ref : List ℝ)
    (h : x.length = ref.length) :
    decreaseDistance x ref 1 = Except.ok (ref, ref) := by
  rw [decreaseDistance, if_pos (by norm_num)]
  rw [zipWith_adjust_neg_one x ref h]

/-- Witness for C4 at the literal input of the spec. -/
theorem c4_witness :
    decreaseDistance [(0 : ℝ), 0] [4, 4] 1 = Except.ok ([4, 4], [4, 4]) :=
  c4_mu_one_replaces_target [(0 : ℝ), 0] [4, 4] rfl

/-- Claim C7: on equal-length sequences, for `0 < mu ≤ 1` the two
transforms update the target elementwise as
`target[i] += (target[i] - reference[i]) * (+mu)` for `moveAway`
(`increaseDistance`) and `* (-mu)` for `moveToward` (`decreaseDistance`),
leaving the reference unchanged; for `mu` outside `(0, 1]` both calls
violate the contract (the `assert` fires). -/
theorem c7_adjust_contract (tomove ref : List ℝ) (mu : ℝ)
    (hlen : tomove.length = ref.length) :
    ((0 < mu ∧ mu ≤ 1) →
      (∃ t, increaseDistance tomove ref mu = Except.ok (t, ref) ∧
        t.length = tomove.length ∧
        ∀ i, i < tomove.length →
          t.getD i 0 = tomove.getD i 0 + (tomove.getD i 0 - ref.getD i 0) * mu) ∧
      (∃ t, decreaseDistance tomove ref mu = Except.ok (t, ref) ∧
        t.length = tomove.length ∧
        ∀ i, i < tomove.length →
          t.getD i 0 =
            tomove.getD i 0 + (tomove.getD i 0 - ref.getD i 0) * (-mu))) ∧
    (¬(0 < mu ∧ mu ≤ 1) →
      increaseDistance tomove ref mu =
        Except.error "assertion failed: 0 < mu and mu <= 1" ∧
      decreaseDistance tomove ref mu =
        Except.error "assertion failed: 0 < mu and mu <= 1") := by
  constructor
  · intro hmu
    constructor
    · refine ⟨_, by rw [increaseDistance, if_pos hmu], ?_, ?_⟩
      · simp [hlen]
      · intro i hi
        rw [zipWith_getD (fun a b => op_adjust mu a b) tomove ref i hi
          (hlen ▸ hi)]
        rfl
    · refine ⟨_, by rw [decreaseDistance, if_pos hmu], ?_, ?_⟩
      · simp [hlen]
      · intro i hi
        rw [zipWith_getD (fun a b => op_adjust (-mu) a b) tomove ref i hi
          (hlen ▸ hi)]
        rfl
  · intro hmu
    exact ⟨by rw [increaseDistance, if_neg hmu],
      by rw [decreaseDistance, if_neg hmu]⟩

/-- Witness for C7 at a concrete input. -/
theorem c7_witness :
    ((0 < (1 : ℝ) / 2 ∧ (1 : ℝ) / 2 ≤ 1) →
      (∃ t, increaseDistance [(1 : ℝ), 2] [3, 5] (1 / 2) = Except.ok (t, [3, 5]) ∧
        t.length = ([(1 : ℝ), 2] : List ℝ).length ∧
        ∀ i, i < ([(1 : ℝ), 2] : List ℝ).length →
          t.getD i 0 = ([(1 : ℝ), 2] : List ℝ).getD i 0 +
            (([(1 : ℝ), 2] : List ℝ).getD i 0 -
              ([(3 : ℝ), 5] : List ℝ).getD i 0) * (1 / 2)) ∧
      (∃ t, decreaseDistance [(1 : ℝ), 2] [3, 5] (1 / 2) = Except.ok (t, [3, 5]) ∧
        t.length = ([(1 : ℝ), 2] : List ℝ).length ∧
        ∀ i, i < ([(1 : ℝ), 2] : List ℝ).length →
          t.getD i 0 = ([(1 : ℝ), 2] : List ℝ).getD i 0 +
            (([(1 : ℝ), 2] : List ℝ).getD i 0 -
              ([(3 : ℝ), 5] : List ℝ).getD i 0) * (-(1 / 2)))) ∧
    (¬(0 < (1 : ℝ) / 2 ∧ (1 : ℝ) / 2 ≤ 1) →
      increaseDistance [(1 : ℝ), 2] [3, 5] (1 / 2) =
        Except.error "assertion failed: 0 < mu and mu <= 1" ∧
      decreaseDistance [(1 : ℝ), 2] [3, 5] (1 / 2) =
        Except.error "assertion failed: 0 < mu and mu <= 1") :=
  c7_adjust_contract [(1 : ℝ), 2] [3, 5] (1 / 2) rfl

/-- Loop invariant of `integral`: with the running value seeded, the output
has one more element than the remaining first range, and element `k` is the
seed plus the running dot-sum of the first `k` remaining pairs. -/
theorem integralGo_spec (xs : List ℝ) :
    ∀ (ys : List ℝ) (v : ℝ), xs.length = ys.length →
      (integralGo v xs ys).length = xs.length + 1 ∧
      ∀ k, k ≤ xs.length →
        (integralGo v xs ys).getD k 0 =
          v + ((List.zipWith (fun a b => a * b) xs ys).take k).sum := by
  induction xs with
  | nil =>
    intro ys v _
    refine ⟨by simp [integralGo], ?_⟩
    intro k hk
    have hk0 : k = 0 := Nat.le_zero.mp hk
    subst hk0
    simp [integralGo]
  | cons x xs ih =>
    intro ys v h
    cases ys with
    | nil => simp at h
    | cons y ys =>
      have h2 : xs.length = ys.length := by simpa using h
      obtain ⟨ihl, ihg⟩ := ih ys (v + x * y) h2
      refine ⟨by simp [integralGo, ihl], ?_⟩
      intro k hk
      cases k with
      | zero => simp [integralGo]
      | succ n =>
        have hn : n ≤ xs.length := by simpa using hk
        simp only [integralGo, List.getD_cons_succ, ihg n hn,
          List.zipWith_cons_cons, List.take_succ_cons, List.sum_cons]
        ring

/-- Claim C9: on equal-length sequences `integral` produces an output of
the same length whose element `k` is the running dot-sum
of the first `k+1` products; in particular
`integral [1,2,3] [1,1,1] = [1,3,6]`. -/
theorem c9_integral_running_dot_sums (l1 l2 : List ℝ)
    (h : l1.length = l2.length) :
    (integral l1 l2).length = l1.length ∧
    (∀ k, k < l1.length →
      (integral l1 l2).getD k 0 =
        ((List.zipWith (fun a b => a * b) l1 l2).take (k + 1)).sum) ∧
    integral [(1 : ℝ), 2, 3] [1, 1, 1] = [1, 3, 6] := by
  refine ⟨?_, ?_, ?_⟩
  · cases l1 with
    | nil => rfl
    | cons x xs =>
      cases l2 with
      | nil => simp at h
      | cons y ys =>
        have h2 : xs.length = ys.length := by simpa using h
        obtain ⟨hl, _⟩ := integralGo_spec xs ys (x * y) h2
        simpa [integral] using hl
  · intro k hk
    cases l1 with
    | nil => simp at hk
    | cons x xs =>
      cases l2 with
      | nil => simp at h
      | cons y ys =>
        have h2 : xs.length = ys.length := by simpa using h
        obtain ⟨_, hg⟩ := integralGo_spec xs ys (x * y) h2
        have hk2 : k ≤ xs.length := by simpa using Nat.lt_succ_iff.mp (by simpa using hk)
        simp only [integral, hg k hk2, List.zipWith_cons_cons,
          List.take_succ_cons, List.sum_cons]
  · norm_num [integral, integralGo]

/-- Witness for C9 at the literal input of the spec. -/
theorem c9_witness :
    (integral [(1 : ℝ), 2, 3] [1, 1, 1]).length =
      ([(1 : ℝ), 2, 3] : List ℝ).length ∧
    (∀ k, k < ([(1 : ℝ), 2, 3] : List ℝ).length →
      (integral [(1 : ℝ), 2, 3] [1, 1, 1]).getD k 0 =
        ((List.zipWith (fun a b => a * b) [(1 : ℝ), 2, 3] [1, 1, 1]).take
          (k + 1)).sum) ∧
    integral [(1 : ℝ), 2, 3] [1, 1, 1] = [1, 3, 6] :=
  c9_integral_running_dot_sums [(1 : ℝ), 2, 3] [1, 1, 1] rfl

/-- One in-place `std::rotate` call is a cyclic rotation in the Mathlib
sense. -/
theorem rotateBack_eq_rotate (shift : Nat) (l : List ℝ) :
    rotateBack shift l = l.rotate (l.length - shift) := by
  rw [List.rotate_eq_drop_append_take (Nat.sub_le _ _)]
  rfl

/-- The convolution loop writes exactly `n` output elements and leaves the
second container holding a cyclic rotation of its initial contents. -/
theorem convolutionLoop_frame (n : Nat) :
    ∀ (l1 l2 : List ℝ) (shift : Nat),
      (convolutionLoop n l1 l2 shift).1.length = n ∧
      ∃ k, (convolutionLoop n l1 l2 shift).2 = l2.rotate k := by
  induction n with
  | zero =>
    intro l1 l2 shift
    exact ⟨rfl, 0, by simp [convolutionLoop]⟩
  | succ m ih =>
    intro l1 l2 shift
    obtain ⟨hl, k, hk⟩ := ih l1 (rotateBack shift l2) shift
    refine ⟨by simp [convolutionLoop, hl], ⟨l2.length - shift + k, ?_⟩⟩
    show (convolutionLoop m l1 (rotateBack shift l2) shift).2 = _
    rw [hk, rotateBack_eq_rotate, List.rotate_rotate]

/-- Claim C10: `circular_convolution` writes exactly `len(seq1)` output
elements and mutates its second input in place via `std::rotate`: after the
call the second container holds a cyclic rotation (hence a permutation) of
its original values, while the first container is only read. The hypothesis
`shift ≤ len(seq2)` is the validity condition of
`std::rotate(first2, last2 - shift, last2)`. -/
theorem c10_circular_convolution_frame (l1 l2 : List ℝ) (shift : Nat)
    (h : shift ≤ l2.length) :
    (circular_convolution l1 l2 shift).1.length = l1.length ∧
    ∃ k, (circular_convolution l1 l2 shift).2 = l2.rotate k ∧
      (circular_convolution l1 l2 shift).2.Perm l2 := by
  obtain ⟨hl, k, hk⟩ := convolutionLoop_frame l1.length l1 l2 shift
  exact ⟨hl, k, hk,
    by rw [show (circular_convolution l1 l2 shift).2 = l2.rotate k from hk]
       exact List.rotate_perm l2 k⟩

/-- Witness for C10 at a concrete input. -/
theorem c10_witness :
    (circular_convolution [(1 : ℝ), 2] [3, 4, 5] 1).1.length =
      ([(1 : ℝ), 2] : List ℝ).length ∧
    ∃ k, (circular_convolution [(1 : ℝ), 2] [3, 4, 5] 1).2 =
        ([(3 : ℝ), 4, 5] : List ℝ).rotate k ∧
      (circular_convolution [(1 : ℝ), 2] [3, 4, 5] 1).2.Perm [3, 4, 5] :=
  c10_circular_convolution_frame [(1 : ℝ), 2] [3, 4, 5] 1 (by decide)

/-- Every pairwise geometric-mean term is non-negative, so the
Bhattacharyya coefficient sum is non-negative. -/
theorem zipWith_battacharyya_sum_nonneg :
    ∀ (a b : List ℝ), 0 ≤ (List.zipWith battacharyya a b).sum := by
  intro a
  induction a with
  | nil => intro b; simp
  | cons x xs ih =>
    intro b
    cases b with
    | nil => simp
    | cons y ys =>
      simp only [List.zipWith_cons_cons, List.sum_cons]
      have h1 : 0 ≤ battacharyya x y := Real.sqrt_nonneg _
      have h2 := ih ys
      linarith

/-- Cauchy-Schwarz for the Bhattacharyya sum over lists of non-negative
elements: the sum of `sqrt (x*y)` is at most `sqrt (sum a) * sqrt (sum b)`. -/
theorem zipWith_battacharyya_sum_le (a : List ℝ) :
    ∀ (b : List ℝ), (∀ x ∈ a, 0 ≤ x) → (∀ x ∈ b, 0 ≤ x) →
      (List.zipWith battacharyya a b).sum ≤
        Real.sqrt a.sum * Real.sqrt b.sum := by
  induction a with
  | nil =>
    intro b _ _
    simpa using mul_nonneg (Real.sqrt_nonneg ([] : List ℝ).sum)
      (Real.sqrt_nonneg b.sum)
  | cons x xs ih =>
    intro b ha hb
    cases b with
    | nil =>
      simpa using mul_nonneg (Real.sqrt_nonneg (x :: xs).sum)
        (Real.sqrt_nonneg ([] : List ℝ).sum)
    | cons y ys =>
      have hx : 0 ≤ x := ha x (List.mem_cons_self x xs)
      have hy : 0 ≤ y := hb y (List.mem_cons_self y ys)
      have hxs : ∀ t ∈ xs, 0 ≤ t := fun t ht => ha t (List.mem_cons_of_mem x ht)
      have hys : ∀ t ∈ ys, 0 ≤ t := fun t ht => hb t (List.mem_cons_of_mem y ht)
      have hA : 0 ≤ xs.sum := List.sum_nonneg hxs
      have hB : 0 ≤ ys.sum := List.sum_nonneg hys
      have IH := ih ys hxs hys
      simp only [List.zipWith_cons_cons, List.sum_cons]
      rw [battacharyya, Real.sqrt_mul hx]
      have ex : Real.sqrt x * Real.sqrt x = x := Real.mul_self_sqrt hx
      have ey : Real.sqrt y * Real.sqrt y = y := Real.mul_self_sqrt hy
      have eA : Real.sqrt xs.sum * Real.sqrt xs.sum = xs.sum :=
        Real.mul_self_sqrt hA
      have eB : Real.sqrt ys.sum * Real.sqrt ys.sum = ys.sum :=
        Real.mul_self_sqrt hB
      have hxA : (0 : ℝ) ≤ x + xs.sum := by linarith
      have hyB : (0 : ℝ) ≤ y + ys.sum := by linarith
      have exA : Real.sqrt (x + xs.sum) * Real.sqrt (x + xs.sum) = x + xs.sum :=
        Real.mul_self_sqrt hxA
      have eyB : Real.sqrt (y + ys.sum) * Real.sqrt (y + ys.sum) = y + ys.sum :=
        Real.mul_self_sqrt hyB
      have hu : (0 : ℝ) ≤ Real.sqrt x * Real.sqrt y +
          Real.sqrt xs.sum * Real.sqrt ys.sum := by
        have := mul_nonneg (Real.sqrt_nonneg x) (Real.sqrt_nonneg y)
        have := mul_nonneg (Real.sqrt_nonneg xs.sum) (Real.sqrt_nonneg ys.sum)
        linarith
      have hR : (0 : ℝ) ≤ Real.sqrt (x + xs.sum) * Real.sqrt (y + ys.sum) :=
        mul_nonneg (Real.sqrt_nonneg _) (Real.sqrt_nonneg _)
      have hsq : (Real.sqrt x * Real.sqrt y +
            Real.sqrt xs.sum * Real.sqrt ys.sum) ^ 2 ≤
          (Real.sqrt (x + xs.sum) * Real.sqrt (y + ys.sum)) ^ 2 := by
        nlinarith [sq_nonneg (Real.sqrt x * Real.sqrt ys.sum -
          Real.sqrt y * Real.sqrt xs.sum)]
      have hle : Real.sqrt x * Real.sqrt y +
          Real.sqrt xs.sum * Real.sqrt ys.sum ≤
          Real.sqrt (x + xs.sum) * Real.sqrt (y + ys.sum) := by
        calc Real.sqrt x * Real.sqrt y + Real.sqrt xs.sum * Real.sqrt ys.sum
            = Real.sqrt ((Real.sqrt x * Real.sqrt y +
                Real.sqrt xs.sum * Real.sqrt ys.sum) ^ 2) :=
              (Real.sqrt_sq hu).symm
          _ ≤ Real.sqrt ((Real.sqrt (x + xs.sum) * Real.sqrt (y + ys.sum)) ^ 2) :=
              Real.sqrt_le_sqrt hsq
          _ = Real.sqrt (x + xs.sum) * Real.sqrt (y + ys.sum) :=
              Real.sqrt_sq hR
      linarith

/-- Claim C5, counterexample to the claim as stated: the normalized
histograms `[1,0]` and `[0,1]` have Bhattacharyya coefficient `0`, which is
not in the half-open interval `(0, 1]`. -/
theorem c5_counterexample :
    distance [(1 : ℝ), 0] [0, 1] DM_BHATTACHARYYA_COEFFICIENT =
      Except.ok 0 ∧ ¬ (0 : ℝ) < 0 := by
  constructor
  · rw [distance, if_pos (show ([(1 : ℝ), 0] : List ℝ).length =
      ([(0 : ℝ), 1] : List ℝ).length from rfl)]
    norm_num [distanceValue, inner_product, battacharyya]
  · norm_num

/-- Claim C5, amended: for normalized histograms (non-negative bins, each
summing to 1, equal lengths) the Bhattacharyya coefficient lies in the
closed interval `[0, 1]`; the lower end is attained, e.g. by `[1,0]` and
`[0,1]`. -/
theorem c5_coefficient_in_unit_interval (a b : List ℝ)
    (hlen : a.length = b.length) (ha : ∀ x ∈ a, 0 ≤ x)
    (hb : ∀ x ∈ b, 0 ≤ x) (hsa : a.sum = 1) (hsb : b.sum = 1) :
    ∃ v, distance a b DM_BHATTACHARYYA_COEFFICIENT = Except.ok v ∧
      0 ≤ v ∧ v ≤ 1 := by
  refine ⟨distanceValue a b DM_BHATTACHARYYA_COEFFICIENT,
    by rw [distance, if_pos hlen], ?_, ?_⟩
  · rw [show distanceValue a b DM_BHATTACHARYYA_COEFFICIENT =
      inner_product (· + ·) battacharyya 0 a b from rfl, inner_product_add]
    simpa using zipWith_battacharyya_sum_nonneg a b
  · rw [show distanceValue a b DM_BHATTACHARYYA_COEFFICIENT =
      inner_product (· + ·) battacharyya 0 a b from rfl, inner_product_add]
    have := zipWith_battacharyya_sum_le a b ha hb
    rw [hsa, hsb, Real.sqrt_one] at this
    simpa using this

/-- Witness for C5 at a concrete input. -/
theorem c5_witness :
    ∃ v, distance [(1 : ℝ) / 2, 1 / 2] [1 / 2, 1 / 2]
        DM_BHATTACHARYYA_COEFFICIENT = Except.ok v ∧ 0 ≤ v ∧ v ≤ 1 :=
  c5_coefficient_in_unit_interval [(1 : ℝ) / 2, 1 / 2] [1 / 2, 1 / 2] rfl
    (by norm_num) (by norm_num) (by norm_num) (by norm_num)

/-- Claim C2, evaluation of the code at the failing input: for the
normalized histograms `[9/25, 16/25]` and `[16/25, 9/25]` the code returns
`sqrt (1 - coefficient) = 1/5` for `DM_SQUARED_HELLINGER`, while the
coefficient is `24/25`, so the claimed identity
`SQUARED_HELLINGER = 1 - BHATTACHARYYA_COEFFICIENT` fails: `1/5 ≠ 1/25`.
The commented-out reference implementation at Container.hpp line 246 (half
the Hellinger-term sum) does equal `1 - coefficient` on normalized input;
the "faster to calculate" replacement on line 248 computes its square
root instead. -/
theorem c2_squared_hellinger_diverges :
    distance [(9 : ℝ) / 25, 16 / 25] [16 / 25, 9 / 25] DM_SQUARED_HELLINGER =
      Except.ok (1 / 5) ∧
    distance [(9 : ℝ) / 25, 16 / 25] [16 / 25, 9 / 25]
        DM_BHATTACHARYYA_COEFFICIENT = Except.ok (24 / 25) ∧
    ((1 : ℝ) / 5) ≠ 1 - 24 / 25 := by
  have h1 : Real.sqrt ((9 : ℝ) / 25 * (16 / 25)) = 12 / 25 := by
    rw [show (9 : ℝ) / 25 * (16 / 25) = (12 / 25) ^ 2 by norm_num,
      Real.sqrt_sq (by norm_num)]
  have h2 : Real.sqrt ((16 : ℝ) / 25 * (9 / 25)) = 12 / 25 := by
    rw [show (16 : ℝ) / 25 * (9 / 25) = (12 / 25) ^ 2 by norm_num,
      Real.sqrt_sq (by norm_num)]
  have hlen : ([(9 : ℝ) / 25, 16 / 25] : List ℝ).length =
      ([(16 : ℝ) / 25, 9 / 25] : List ℝ).length := rfl
  refine ⟨?_, ?_, by norm_num⟩
  · rw [distance, if_pos hlen]
    simp only [distanceValue, inner_product, battacharyya, h1, h2]
    rw [show (1 : ℝ) - (0 + 12 / 25 + 12 / 25) = (1 / 5) ^ 2 by norm_num,
      Real.sqrt_sq (by norm_num)]
  · rw [distance, if_pos hlen]
    simp only [distanceValue, inner_product, battacharyya, h1, h2]
    norm_num

/-- Claim C8: the Hausdorff set-to-set distance is symmetric for any point
metric, on non-empty sets of points of a common length (the conditions
under which both directional SUPINF computations return a value). -/
theorem c8_hausdorff_symmetric (s1 s2 : List (List ℝ))
    (pm : DistanceMetric) (n : Nat) (h1 : s1 ≠ []) (h2 : s2 ≠ [])
    (hp : ∀ q ∈ s1, q.length = n) (hq : ∀ q ∈ s2, q.length = n) :
    distance_to_set s1 s2 SDM_HAUSDORFF pm =
      distance_to_set s2 s1 SDM_HAUSDORFF pm := by
  obtain ⟨a, ha⟩ := supinfDistance_ok s1 s2 pm n h1 h2 hp hq
  obtain ⟨b, hb⟩ := supinfDistance_ok s2 s1 pm n h2 h1 hq hp
  simp [distance_to_set, ha, hb, max_comm]

/-- Witness for C8 at a concrete input. -/
theorem c8_witness :
    distance_to_set [[(1 : ℝ)], [2]] [[3]] SDM_HAUSDORFF DM_MANHATTAN =
      distance_to_set [[3]] [[(1 : ℝ)], [2]] SDM_HAUSDORFF DM_MANHATTAN :=
  c8_hausdorff_symmetric [[(1 : ℝ)], [2]] [[3]] DM_MANHATTAN 1
    (by simp) (by simp)
    (by intro q hq; simp at hq; rcases hq with h | h <;> simp [h])
    (by intro q hq; simp at hq; simp [hq])

end dobots
